import Mathlib

/-!
Verification development for the session-lifecycle, transcript-cap,
concurrency-gate and process-orchestration logic of src/relay.ts
(claude-telegram-relay).

Strings are modelled as lists of characters; the JavaScript string
operations used by the source (length, append, indexOf with a start
position, substring from an index) are translated to executable list
functions with the same semantics for the inputs that occur.  Timestamps
are modelled as natural numbers of milliseconds since the epoch; the
JavaScript subtraction of two timestamps is modelled as integer
subtraction.  The asynchronous behaviour of the spawned assistant
process is modelled by an explicit oracle value describing what the
process did, and the orchestrator's decision logic is translated as a
function of that oracle.
-/

abbrev Str := List Char

/-- Default of SESSION_MAX_MESSAGES, relay.ts line 106. -/
def SESSION_MAX_MESSAGES : Nat := 30

/-- Default of SESSION_IDLE_TIMEOUT_MIN, relay.ts line 107. -/
def SESSION_IDLE_TIMEOUT_MIN : Nat := 30

/-- TRANSCRIPT_MAX_BYTES, relay.ts line 181: fifty kilobyte cap. -/
def TRANSCRIPT_MAX_BYTES : Nat := 50 * 1024

/-- CLAUDE_TIMEOUT_MS, relay.ts line 471: five minute process timeout. -/
def CLAUDE_TIMEOUT_MS : Nat := 5 * 60 * 1000

/-- Grace window before SIGKILL escalation, relay.ts line 543. -/
def KILL_GRACE_MS : Nat := 5000

/-- The two-newline entry terminator appended after every transcript entry. -/
def entrySep : Str := ['\n', '\n']

/-- SessionState, relay.ts lines 131 to 139.  startedAt is an optional
timestamp so that the JavaScript falsiness test on it can be translated. -/
structure SessionState where
  sessionId : Option Str
  lastActivity : Nat
  messageCount : Nat
  transcript : Str
  chatId : Option Str
  userIds : List Str
  startedAt : Option Nat
deriving DecidableEq

/-- newSessionState, relay.ts lines 141 to 151. -/
def newSessionState (now : Nat) : SessionState :=
  { sessionId := none
    lastActivity := now
    messageCount := 0
    transcript := []
    chatId := none
    userIds := []
    startedAt := some now }

/-- The two closure reasons returned by shouldCloseSession. -/
inductive CloseReason
  | idle
  | limit
deriving DecidableEq

/-- shouldCloseSession, relay.ts lines 183 to 188.  The session state and
the current time are explicit arguments; the two thresholds are the
configuration values read at startup. -/
def shouldCloseSession (maxMessages idleTimeoutMin : Nat) (now : Nat)
    (s : SessionState) : Option CloseReason :=
  if maxMessages ≤ s.messageCount then some CloseReason.limit
  else if 0 < s.messageCount ∧
      (now : Int) - (s.lastActivity : Int) > (idleTimeoutMin : Int) * 60 * 1000 then
    some CloseReason.idle
  else none

/-- Result of closeSession: the fresh session installed in place of the
closed one, the closed snapshot's message count (the return value of the
source function), and whether the fire-and-forget archive-and-summarize
background task was dispatched (the guard on relay.ts line 200). -/
structure CloseResult where
  newState : SessionState
  messageCount : Nat
  archiveDispatched : Bool
deriving DecidableEq

/-- closeSession, relay.ts lines 190 to 240.  The durable-store client
being configured is the boolean supabaseConfigured; the background task
is dispatched exactly when that holds and the snapshot transcript is
nonempty. -/
def closeSession (supabaseConfigured : Bool) (now : Nat) (s : SessionState) :
    CloseResult :=
  { newState := newSessionState now
    messageCount := s.messageCount
    archiveDispatched := supabaseConfigured && decide (0 < s.transcript.length) }

/-- Helper for the JavaScript s.indexOf(sub, start): scan for the first
position where sub is a prefix of the remaining list. -/
def indexOfAux (sub : Str) : Str → Option Nat
  | [] => if sub.isPrefixOf ([] : Str) then some 0 else none
  | c :: rest =>
    if sub.isPrefixOf (c :: rest) then some 0
    else (indexOfAux sub rest).map (· + 1)

/-- JavaScript s.indexOf(sub, start) for a nonempty needle: the least
position at or after start where sub occurs, none standing for minus one. -/
def indexOfFrom (s sub : Str) (start : Nat) : Option Nat :=
  (indexOfAux sub (s.drop start)).map (· + start)

/-- The transcript-cap enforcement shared by trackMessage (relay.ts lines
265 to 269) and trackResponse (lines 277 to 281): when the transcript
exceeds the cap, cut just past the first two-newline separator found at
or after position length minus cap, or keep the last cap characters when
no separator is found there. -/
def truncateTranscript (cap : Nat) (t : Str) : Str :=
  if cap < t.length then
    match indexOfFrom t entrySep (t.length - cap) with
    | some cutPoint => t.drop (cutPoint + 2)
    | none => t.drop (t.length - cap)
  else t

/-- The transcript entry appended for an inbound message, relay.ts line
263: the user name, a colon and a space, the text, two newlines. -/
def userEntry (userName text : Str) : Str :=
  userName ++ (':' :: ' ' :: (text ++ entrySep))

/-- The speaker label used by trackResponse, relay.ts line 275. -/
def assistantName : Str := "Assistant".toList

/-- The field updates performed by trackMessage between the closure check
and the transcript append, relay.ts lines 249 to 260: increment the
message count, stamp the activity time, set the chat id, add the user id
if absent, and reset startedAt when absent or when this is the first
message of the session. -/
def applyInboundUpdates (now : Nat) (userId chatId : Str) (s : SessionState) :
    SessionState :=
  let s2 := { s with
    messageCount := s.messageCount + 1
    lastActivity := now
    chatId := some chatId }
  let s3 := if s2.userIds.contains userId then s2
    else { s2 with userIds := s2.userIds ++ [userId] }
  if s3.startedAt = none ∨ s3.messageCount = 1 then { s3 with startedAt := some now }
  else s3

/-- trackMessage, relay.ts lines 242 to 272: evaluate the closure policy
first and swap in the fresh session from closeSession when it fires,
apply the inbound field updates, append the entry, enforce the cap. -/
def trackMessage (maxMessages idleTimeoutMin : Nat) (supabaseConfigured : Bool)
    (now : Nat) (text userName userId chatId : Str) (s : SessionState) :
    SessionState :=
  let s1 := match shouldCloseSession maxMessages idleTimeoutMin now s with
    | some _ => (closeSession supabaseConfigured now s).newState
    | none => s
  let s2 := applyInboundUpdates now userId chatId s1
  { s2 with
    transcript := truncateTranscript TRANSCRIPT_MAX_BYTES
      (s2.transcript ++ userEntry userName text) }

/-- trackResponse, relay.ts lines 274 to 284: append the assistant entry
under the same cap policy, touching no other field. -/
def trackResponse (response : Str) (s : SessionState) : SessionState :=
  { s with
    transcript := truncateTranscript TRANSCRIPT_MAX_BYTES
      (s.transcript ++ userEntry assistantName response) }

/-- The session-id assignment performed inside callClaude on a successful
non-internal call, relay.ts lines 577 to 580. -/
def assignSessionId (id : Str) (now : Nat) (s : SessionState) : SessionState :=
  { s with sessionId := some id, lastActivity := now }

/-- The per-user concurrency gate state, relay.ts line 625: the set of
user ids with an outstanding request (the map only ever stores true). -/
abbrev GateState := List Str

/-- isUserBusy, relay.ts lines 627 to 629. -/
def isUserBusy (g : GateState) (userId : Option Str) : Bool :=
  match userId with
  | none => false
  | some id => g.contains id

/-- markUserBusy, relay.ts lines 631 to 633. -/
def markUserBusy (g : GateState) (userId : Option Str) : GateState :=
  match userId with
  | none => g
  | some id => if g.contains id then g else id :: g

/-- markUserFree, relay.ts lines 635 to 637: the map entry is deleted. -/
def markUserFree (g : GateState) (userId : Option Str) : GateState :=
  match userId with
  | none => g
  | some id => g.filter (fun x => !(x == id))

/-- The acquire step of the message handlers, relay.ts lines 688 to 693:
reject when busy, otherwise mark busy and admit. -/
def tryAcquire (g : GateState) (userId : Option Str) : Bool × GateState :=
  if isUserBusy g userId then (false, g) else (true, markUserBusy g userId)

/-- Signals the orchestrator can send to the spawned process. -/
inductive Sig
  | sigterm
  | sigkill
deriving DecidableEq

/-- The timeout escalation of relay.ts lines 530 to 544: a graceful
SIGTERM at once, then a SIGKILL after the grace window only when the
process is still alive. -/
def timeoutKillSignals (stillAliveAfterGrace : Bool) : List Sig :=
  Sig.sigterm :: (if stillAliveAfterGrace then [Sig.sigkill] else [])

/-- The structured record expected on the assistant's standard output,
relay.ts lines 574 to 585.  Absent fields stand for JSON fields that are
missing or null; the empty list stands for the falsy empty string. -/
structure AssistantJson where
  result : Option Str
  session_id : Option Str
deriving DecidableEq

/-- Oracle describing what the spawned assistant process did: the spawn
call itself failed, the timeout fired (recording whether the process was
still alive when the grace window elapsed), or the process completed
with an exit code, a parse of its standard output (none meaning
JSON.parse threw), the raw standard output, and its standard error. -/
inductive ProcBehavior
  | spawnFailure
  | timeout (stillAliveAfterGrace : Bool)
  | exited (exitCode : Int) (stdoutJson : Option AssistantJson)
      (rawStdout : Str) (stderr : Str)
deriving DecidableEq

/-- Outcome of the Promise.race of relay.ts lines 550 to 553: the
standard-output text, or the rejection raised by the timeout promise. -/
def raceStdoutOutcome : ProcBehavior → Except Unit Str
  | ProcBehavior.timeout _ => Except.error ()
  | ProcBehavior.exited _ _ rawStdout _ => Except.ok rawStdout
  | ProcBehavior.spawnFailure => Except.error ()

/-- The timedOut flag set by the timeout timer, relay.ts line 531. -/
def timedOutFlag : ProcBehavior → Bool
  | ProcBehavior.timeout _ => true
  | _ => false

/-- Whether the process was still alive when the grace window elapsed. -/
def stillAliveFlag : ProcBehavior → Bool
  | ProcBehavior.timeout alive => alive
  | _ => false

/-- The distinguished timeout reply, relay.ts line 557. -/
def timeoutReply : Str := "Claude timed out after 5 minutes. Please try again.".toList

/-- The reply built for a nonzero exit, relay.ts line 569: the captured
standard error, or a generic message when it is empty. -/
def nonzeroExitReply (exitCode : Int) (stderr : Str) : Str :=
  "Error: ".toList ++
    (if stderr = [] then "Claude exited with code ".toList ++ (toString exitCode).toList
     else stderr)

/-- The reply extracted from a parsed record, relay.ts line 585: the
result field, or No response when it is missing or empty. -/
def resultReply (j : AssistantJson) : Str :=
  match j.result with
  | some t => if t = [] then "No response".toList else t
  | none => "No response".toList

/-- The session id propagated to the session engine, relay.ts lines 577
to 580: only for a truthy session_id on a non-internal call. -/
def sessionUpdate (internal : Bool) (j : AssistantJson) : Option Str :=
  match j.session_id with
  | some sid => if sid ≠ [] ∧ internal = false then some sid else none
  | none => none

/-- JavaScript whitespace test for String.prototype.trim, restricted to
the whitespace characters that occur in this program's data. -/
def isJsWhitespaceChar (c : Char) : Bool :=
  c == ' ' || c == '\n' || c == '\t' || c == '\r'

/-- JavaScript String.prototype.trim, used by the raw-output fallback of
relay.ts line 589. -/
def jsTrim (s : Str) : Str :=
  ((s.dropWhile isJsWhitespaceChar).reverse.dropWhile isJsWhitespaceChar).reverse

/-- What a single invocation returns to its caller: the reply text, the
signals sent to the spawned process, and the session id to record. -/
structure CallResult where
  reply : Str
  signalsSent : List Sig
  sessionIdUpdate : Option Str
deriving DecidableEq

/-- Outcome of the inner try block of callClaude, relay.ts lines 525 to
593: either a normal return or a fault propagating out (the rethrow on
line 559 when the race rejected without the timedOut flag). -/
inductive InnerOutcome
  | returned (r : CallResult)
  | thrown
deriving DecidableEq

/-- The inner try block of callClaude, relay.ts lines 525 to 593: race
the output against the timeout; on a rejection return the distinguished
timeout reply when the timedOut flag is set (the kill escalation having
been issued by the timer) and rethrow otherwise; on output, branch on
the exit code and on whether the JSON parse succeeded. -/
def callClaudeInner (internal : Bool) (b : ProcBehavior) : InnerOutcome :=
  match raceStdoutOutcome b with
  | Except.error _ =>
    if timedOutFlag b then
      InnerOutcome.returned
        { reply := timeoutReply
          signalsSent := timeoutKillSignals (stillAliveFlag b)
          sessionIdUpdate := none }
    else InnerOutcome.thrown
  | Except.ok rawStdout =>
    match b with
    | ProcBehavior.exited exitCode stdoutJson _ stderr =>
      if exitCode ≠ 0 then
        InnerOutcome.returned
          { reply := nonzeroExitReply exitCode stderr
            signalsSent := []
            sessionIdUpdate := none }
      else
        match stdoutJson with
        | some j =>
          InnerOutcome.returned
            { reply := resultReply j
              signalsSent := []
              sessionIdUpdate := sessionUpdate internal j }
        | none =>
          InnerOutcome.returned
            { reply := jsTrim rawStdout
              signalsSent := []
              sessionIdUpdate := none }
    | _ => InnerOutcome.thrown

/-- callClaude, relay.ts lines 473 to 598: the outer try catches both a
failing spawn call and anything thrown out of the inner block and turns
it into the generic error reply, so the function always returns a value. -/
def callClaude (internal : Bool) (b : ProcBehavior) : CallResult :=
  match b with
  | ProcBehavior.spawnFailure =>
    { reply := "Error: Could not run Claude CLI".toList
      signalsSent := []
      sessionIdUpdate := none }
  | _ =>
    match callClaudeInner internal b with
    | InnerOutcome.returned r => r
    | InnerOutcome.thrown =>
      { reply := "Error: Could not run Claude CLI".toList
        signalsSent := []
        sessionIdUpdate := none }

/-- A transcript entry as appended by the session engine: a speaker and
a text, rendered as the speaker, a colon and a space, the text, and the
two-newline terminator. -/
structure TranscriptEntry where
  speaker : Str
  text : Str
deriving DecidableEq

/-- The part of a rendered entry before the terminator. -/
def entryBody (e : TranscriptEntry) : Str :=
  e.speaker ++ (':' :: ' ' :: e.text)

/-- The rendered entry, exactly the string appended by the source. -/
def renderEntry (e : TranscriptEntry) : Str :=
  userEntry e.speaker e.text

/-- Concatenation of a list of rendered entries. -/
def renderAll : List TranscriptEntry → Str
  | [] => []
  | e :: es => renderEntry e ++ renderAll es

/-- An entry whose speaker and text contain no newline character. -/
def CleanEntry (e : TranscriptEntry) : Prop :=
  '\n' ∉ e.speaker ∧ '\n' ∉ e.text

/-- A transcript that is a suffix of the appended entries cut exactly at
an entry boundary: no entry is left partially truncated in it. -/
def BoundarySuffix (t : Str) (es : List TranscriptEntry) : Prop :=
  ∃ k, t = renderAll (es.drop k)

/-- Repeatedly feed the same short inbound message with the default
thresholds at time zero, for the concrete session-limit scenarios. -/
def runMessages : Nat → SessionState → SessionState
  | 0, s => s
  | n + 1, s =>
    runMessages n
      (trackMessage SESSION_MAX_MESSAGES SESSION_IDLE_TIMEOUT_MIN false 0
        ['h', 'i'] ['U'] ['u'] ['c'] s)

/-- A session with one recorded message and last activity at time zero. -/
def sIdle : SessionState :=
  { sessionId := none
    lastActivity := 0
    messageCount := 1
    transcript := []
    chatId := none
    userIds := [['u']]
    startedAt := some 0 }

/-- A session whose message count has reached the default maximum and
whose idle time also exceeds the default timeout at time 1860000. -/
def sLimit : SessionState :=
  { sessionId := none
    lastActivity := 0
    messageCount := 30
    transcript := []
    chatId := none
    userIds := [['u']]
    startedAt := some 0 }

/-- A message text containing an internal blank-line separator, long
enough on both sides that the cap cut lands on the internal separator. -/
def cexEntryText : Str :=
  List.replicate 30000 'a' ++ (entrySep ++ List.replicate 30000 'b')

/-- The session obtained by recording that message into a fresh session. -/
def cexSession : SessionState :=
  trackMessage SESSION_MAX_MESSAGES SESSION_IDLE_TIMEOUT_MIN false 0
    cexEntryText ['U'] ['u'] ['c'] (newSessionState 0)

/-! ## Basic facts about the tracked state -/

theorem applyInboundUpdates_transcript (now : Nat) (userId chatId : Str)
    (s : SessionState) :
    (applyInboundUpdates now userId chatId s).transcript = s.transcript := by
  unfold applyInboundUpdates
  dsimp only
  split <;> split <;> rfl

theorem applyInboundUpdates_messageCount (now : Nat) (userId chatId : Str)
    (s : SessionState) :
    (applyInboundUpdates now userId chatId s).messageCount = s.messageCount + 1 := by
  unfold applyInboundUpdates
  dsimp only
  split <;> split <;> rfl

theorem trackMessage_transcript (maxMessages idleTimeoutMin : Nat)
    (supabaseConfigured : Bool) (now : Nat) (text userName userId chatId : Str)
    (s : SessionState) :
    (trackMessage maxMessages idleTimeoutMin supabaseConfigured now
        text userName userId chatId s).transcript =
      truncateTranscript TRANSCRIPT_MAX_BYTES
        ((match shouldCloseSession maxMessages idleTimeoutMin now s with
          | some _ => ([] : Str)
          | none => s.transcript) ++ userEntry userName text) := by
  unfold trackMessage
  cases h : shouldCloseSession maxMessages idleTimeoutMin now s <;>
    simp [h, applyInboundUpdates_transcript, closeSession, newSessionState]

theorem trackMessage_messageCount (maxMessages idleTimeoutMin : Nat)
    (supabaseConfigured : Bool) (now : Nat) (text userName userId chatId : Str)
    (s : SessionState) :
    (trackMessage maxMessages idleTimeoutMin supabaseConfigured now
        text userName userId chatId s).messageCount =
      (match shouldCloseSession maxMessages idleTimeoutMin now s with
        | some _ => 0
        | none => s.messageCount) + 1 := by
  unfold trackMessage
  cases h : shouldCloseSession maxMessages idleTimeoutMin now s <;>
    simp [h, applyInboundUpdates_messageCount, closeSession, newSessionState]

theorem shouldCloseSession_none_lt (maxMessages idleTimeoutMin now : Nat)
    (s : SessionState)
    (h : shouldCloseSession maxMessages idleTimeoutMin now s = none) :
    s.messageCount < maxMessages := by
  by_contra hc
  unfold shouldCloseSession at h
  rw [if_pos (by omega)] at h
  exact Option.noConfusion h

/-! ## Claim theorems: session lifecycle and orchestration -/

/-- Claim C5: after closeSession the live session is a fresh empty one
with messageCount zero, no session id and an empty transcript, and the
returned count is exactly the closed session's message count. -/
theorem claim_C5 (supabaseConfigured : Bool) (now : Nat) (s : SessionState) :
    (closeSession supabaseConfigured now s).newState.messageCount = 0 ∧
    (closeSession supabaseConfigured now s).newState.sessionId = none ∧
    (closeSession supabaseConfigured now s).newState.transcript = [] ∧
    (closeSession supabaseConfigured now s).messageCount = s.messageCount := by
  exact ⟨rfl, rfl, rfl, rfl⟩

/-- Claim C8: trackResponse appends the assistant entry under the cap
policy and leaves every other field of the session unchanged, so a
subsequent closure evaluation is unaffected by the reply. -/
theorem claim_C8 (response : Str) (s : SessionState) :
    (trackResponse response s).transcript =
      truncateTranscript TRANSCRIPT_MAX_BYTES
        (s.transcript ++ userEntry assistantName response) ∧
    (trackResponse response s).messageCount = s.messageCount ∧
    (trackResponse response s).lastActivity = s.lastActivity ∧
    (trackResponse response s).sessionId = s.sessionId ∧
    (trackResponse response s).chatId = s.chatId ∧
    (trackResponse response s).userIds = s.userIds ∧
    (trackResponse response s).startedAt = s.startedAt ∧
    ∀ (maxMessages idleTimeoutMin now : Nat),
      shouldCloseSession maxMessages idleTimeoutMin now (trackResponse response s) =
        shouldCloseSession maxMessages idleTimeoutMin now s := by
  exact ⟨rfl, rfl, rfl, rfl, rfl, rfl, rfl, fun _ _ _ => rfl⟩

/-- Claim C10: the background archival-and-summary task is dispatched on
close exactly when the durable store client is configured and the closed
snapshot's transcript is nonempty; closing a session with an empty
transcript never dispatches it. -/
theorem claim_C10 (supabaseConfigured : Bool) (now : Nat) (s : SessionState) :
    ((closeSession supabaseConfigured now s).archiveDispatched = true ↔
      supabaseConfigured = true ∧ 0 < s.transcript.length) ∧
    (closeSession supabaseConfigured now
        { s with transcript := [] }).archiveDispatched = false := by
  constructor
  · simp [closeSession]
  · simp [closeSession]

/-- Claim C4: when the spawned process exceeds the fixed five minute
timeout, callClaude returns the distinguished timeout reply as a normal
return value, having sent a graceful termination signal and a forceful
kill after the five second grace window only when the process was still
alive. -/
theorem claim_C4 :
    CLAUDE_TIMEOUT_MS = 5 * 60 * 1000 ∧ KILL_GRACE_MS = 5000 ∧
    ∀ (internal stillAlive : Bool),
      callClaudeInner internal (ProcBehavior.timeout stillAlive) =
        InnerOutcome.returned
          { reply := timeoutReply
            signalsSent := Sig.sigterm :: (if stillAlive then [Sig.sigkill] else [])
            sessionIdUpdate := none } ∧
      callClaude internal (ProcBehavior.timeout stillAlive) =
        { reply := timeoutReply
          signalsSent := Sig.sigterm :: (if stillAlive then [Sig.sigkill] else [])
          sessionIdUpdate := none } := by
  refine ⟨rfl, rfl, fun internal stillAlive => ⟨?_, ?_⟩⟩ <;> cases stillAlive <;> rfl

/-- Claim C7: acquiring the gate twice for the same user without an
intervening release fails the second time, a release makes a subsequent
acquire succeed again, and the gate of one user never affects the busy
state of another. -/
theorem claim_C7 (g : GateState) (id id2 : Str) (hne : id ≠ id2) :
    (tryAcquire (tryAcquire g (some id)).2 (some id)).1 = false ∧
    (tryAcquire (markUserFree g (some id)) (some id)).1 = true ∧
    isUserBusy (tryAcquire g (some id)).2 (some id2) = isUserBusy g (some id2) ∧
    isUserBusy (markUserFree g (some id)) (some id2) = isUserBusy g (some id2) := by
  refine ⟨?_, ?_, ?_, ?_⟩
  · by_cases hb : id ∈ g
    · simp [tryAcquire, isUserBusy, markUserBusy, hb]
    · simp [tryAcquire, isUserBusy, markUserBusy, hb]
  · simp [tryAcquire, isUserBusy, markUserFree]
  · by_cases hb : id ∈ g
    · simp [tryAcquire, isUserBusy, markUserBusy, hb]
    · simp [tryAcquire, isUserBusy, markUserBusy, hb, hne.symm]
  · simp [isUserBusy, markUserFree, hne.symm]

/-- Witness for claim C7 at a concrete gate and two concrete user ids. -/
theorem claim_C7_witness :
    (['a'] : Str) ≠ ['b'] ∧
    ((tryAcquire (tryAcquire [] (some ['a'])).2 (some ['a'])).1 = false ∧
      (tryAcquire (markUserFree [] (some ['a'])) (some ['a'])).1 = true ∧
      isUserBusy (tryAcquire [] (some ['a'])).2 (some ['b']) =
        isUserBusy [] (some ['b']) ∧
      isUserBusy (markUserFree [] (some ['a'])) (some ['b']) =
        isUserBusy [] (some ['b'])) :=
  ⟨by decide, claim_C7 [] ['a'] ['b'] (by decide)⟩

set_option maxRecDepth 40000 in
/-- Claim C2 as stated is false on the code: with the default maximum of
thirty, the closure check before the thirtieth inbound message sees a
count of twenty-nine and fires nothing, so the thirtieth message is
recorded into the same session, whose count then reads thirty, not one. -/
theorem claim_C2_counterexample :
    shouldCloseSession SESSION_MAX_MESSAGES SESSION_IDLE_TIMEOUT_MIN 0
        (runMessages 29 (newSessionState 0)) = none ∧
    (runMessages 30 (newSessionState 0)).messageCount = 30 ∧
    ¬(runMessages 30 (newSessionState 0)).messageCount = 1 := by
  refine ⟨by decide, by decide, by decide⟩

set_option maxRecDepth 40000 in
/-- Claim C2, amended: shouldCloseSession returns the limit reason
exactly when the count has reached the maximum, so with the default
maximum of thirty the first thirty inbound messages land in the same
session and it is the thirty-first that triggers the close and lands in
the fresh session. -/
theorem claim_C2 :
    (∀ (maxMessages idleTimeoutMin now : Nat) (s : SessionState),
        shouldCloseSession maxMessages idleTimeoutMin now s = some CloseReason.limit ↔
          maxMessages ≤ s.messageCount) ∧
    (runMessages 30 (newSessionState 0)).messageCount = 30 ∧
    (runMessages 31 (newSessionState 0)).messageCount = 1 := by
  refine ⟨fun maxMessages idleTimeoutMin now s => ?_, by decide, by decide⟩
  unfold shouldCloseSession
  split_ifs with h1 h2 <;> simp_all

/-- Claim C6 as stated is false on the code: a session at the message
limit whose idle time also exceeds the timeout satisfies the idle
condition of the claim, yet shouldCloseSession returns the limit reason,
not the idle reason, because the limit check runs first. -/
theorem claim_C6_counterexample :
    (0 < sLimit.messageCount ∧
      (1860000 : Int) - (sLimit.lastActivity : Int) >
        (SESSION_IDLE_TIMEOUT_MIN : Int) * 60 * 1000) ∧
    shouldCloseSession SESSION_MAX_MESSAGES SESSION_IDLE_TIMEOUT_MIN 1860000 sLimit ≠
      some CloseReason.idle := by
  refine ⟨⟨by decide, by decide⟩, by decide⟩

/-- Claim C6, amended: the idle reason is returned exactly when the
count is positive but below the maximum and the elapsed time strictly
exceeds the timeout; none is returned exactly when neither the limit nor
the idle condition holds; with the default thirty minute timeout a
message at minute thirty-one closes the session and lands in the fresh
one while a message at minute twenty-nine does not. -/
theorem claim_C6 :
    (∀ (maxMessages idleTimeoutMin now : Nat) (s : SessionState),
        shouldCloseSession maxMessages idleTimeoutMin now s = some CloseReason.idle ↔
          (s.messageCount < maxMessages ∧ 0 < s.messageCount ∧
            (now : Int) - (s.lastActivity : Int) > (idleTimeoutMin : Int) * 60 * 1000)) ∧
    (∀ (maxMessages idleTimeoutMin now : Nat) (s : SessionState),
        shouldCloseSession maxMessages idleTimeoutMin now s = none ↔
          (s.messageCount < maxMessages ∧
            ¬(0 < s.messageCount ∧
              (now : Int) - (s.lastActivity : Int) > (idleTimeoutMin : Int) * 60 * 1000))) ∧
    shouldCloseSession SESSION_MAX_MESSAGES SESSION_IDLE_TIMEOUT_MIN (31 * 60 * 1000)
        sIdle = some CloseReason.idle ∧
    (trackMessage SESSION_MAX_MESSAGES SESSION_IDLE_TIMEOUT_MIN false (31 * 60 * 1000)
        ['h', 'i'] ['U'] ['u'] ['c'] sIdle).messageCount = 1 ∧
    shouldCloseSession SESSION_MAX_MESSAGES SESSION_IDLE_TIMEOUT_MIN (29 * 60 * 1000)
        sIdle = none ∧
    (trackMessage SESSION_MAX_MESSAGES SESSION_IDLE_TIMEOUT_MIN false (29 * 60 * 1000)
        ['h', 'i'] ['U'] ['u'] ['c'] sIdle).messageCount = 2 := by
  refine ⟨fun maxMessages idleTimeoutMin now s => ?_,
    fun maxMessages idleTimeoutMin now s => ?_, by decide, by decide, by decide, by decide⟩
  · unfold shouldCloseSession
    split_ifs with h1 h2 <;> simp_all
  · unfold shouldCloseSession
    split_ifs with h1 h2 <;> simp_all

/-- Claim C3: every operation preserves the bound of the message count by
the configured maximum while the session is open, because trackMessage
closes and replaces the session before incrementing whenever the count
has reached the maximum. -/
theorem claim_C3 (maxMessages idleTimeoutMin : Nat) (supabaseConfigured : Bool)
    (now now2 : Nat) (text userName userId chatId sid response : Str)
    (s : SessionState) (hmax : 1 ≤ maxMessages) (hs : s.messageCount ≤ maxMessages) :
    (trackMessage maxMessages idleTimeoutMin supabaseConfigured now
        text userName userId chatId s).messageCount ≤ maxMessages ∧
    (trackResponse response s).messageCount ≤ maxMessages ∧
    (closeSession supabaseConfigured now s).newState.messageCount ≤ maxMessages ∧
    (assignSessionId sid now2 s).messageCount ≤ maxMessages := by
  refine ⟨?_, hs, Nat.zero_le _, hs⟩
  rw [trackMessage_messageCount]
  cases h : shouldCloseSession maxMessages idleTimeoutMin now s with
  | some r => simpa using hmax
  | none =>
    have hlt := shouldCloseSession_none_lt maxMessages idleTimeoutMin now s h
    simpa using hlt

/-- Witness for claim C3 at the default thresholds and a fresh session. -/
theorem claim_C3_witness :
    1 ≤ SESSION_MAX_MESSAGES ∧
    (newSessionState 0).messageCount ≤ SESSION_MAX_MESSAGES ∧
    ((trackMessage SESSION_MAX_MESSAGES SESSION_IDLE_TIMEOUT_MIN false 0
        ['h', 'i'] ['U'] ['u'] ['c'] (newSessionState 0)).messageCount ≤
          SESSION_MAX_MESSAGES ∧
      (trackResponse ['o', 'k'] (newSessionState 0)).messageCount ≤
        SESSION_MAX_MESSAGES ∧
      (closeSession false 0 (newSessionState 0)).newState.messageCount ≤
        SESSION_MAX_MESSAGES ∧
      (assignSessionId ['s'] 0 (newSessionState 0)).messageCount ≤
        SESSION_MAX_MESSAGES) :=
  ⟨by decide, by decide,
    claim_C3 SESSION_MAX_MESSAGES SESSION_IDLE_TIMEOUT_MIN false 0 0
      ['h', 'i'] ['U'] ['u'] ['c'] ['s'] ['o', 'k'] (newSessionState 0)
      (by decide) (by decide)⟩

/-! ## Transcript truncation: separator search lemmas -/

theorem entrySep_isPrefixOf_append (r : Str) :
    entrySep.isPrefixOf (entrySep ++ r) = true := by
  simp [entrySep, List.isPrefixOf]

theorem entrySep_not_isPrefixOf_cons (c : Char) (l : Str) (hc : c ≠ '\n') :
    entrySep.isPrefixOf (c :: l) = false := by
  simp [entrySep, List.isPrefixOf, Ne.symm hc]

theorem indexOfAux_append_free (u r : Str) (hu : '\n' ∉ u) :
    indexOfAux entrySep (u ++ (entrySep ++ r)) = some u.length := by
  induction u with
  | nil =>
    rw [List.nil_append]
    show indexOfAux entrySep ('\n' :: ('\n' :: r)) = some 0
    have hp : entrySep.isPrefixOf ('\n' :: ('\n' :: r)) = true := entrySep_isPrefixOf_append r
    rw [indexOfAux, if_pos hp]
  | cons c t ih =>
    have hc : c ≠ '\n' := fun h => hu (h ▸ List.mem_cons_self c t)
    have ht : '\n' ∉ t := fun h => hu (List.mem_cons_of_mem _ h)
    rw [List.cons_append, indexOfAux]
    rw [if_neg (by simp [entrySep_not_isPrefixOf_cons _ _ hc])]
    rw [ih ht]
    simp

theorem indexOfAux_ne_none (l : Str) (q : Nat)
    (h : entrySep.isPrefixOf (l.drop q) = true) :
    indexOfAux entrySep l ≠ none := by
  induction l generalizing q with
  | nil => simp [entrySep, List.isPrefixOf] at h
  | cons c t ih =>
    by_cases hp : entrySep.isPrefixOf (c :: t) = true
    · simp [indexOfAux, hp]
    · cases q with
      | zero =>
        rw [List.drop_zero] at h
        exact absurd h hp
      | succ q' =>
        rw [List.drop_succ_cons] at h
        have hne := ih q' h
        simp [indexOfAux, hp]
        exact hne

theorem indexOfFrom_ge {s sub : Str} {start p : Nat}
    (h : indexOfFrom s sub start = some p) : start ≤ p := by
  unfold indexOfFrom at h
  cases hx : indexOfAux sub (s.drop start) with
  | none => rw [hx] at h; simp at h
  | some m => rw [hx] at h; simp at h; omega

theorem truncateTranscript_length_le (cap : Nat) (t : Str) :
    (truncateTranscript cap t).length ≤ cap := by
  unfold truncateTranscript
  split
  · next hlen =>
    cases hidx : indexOfFrom t entrySep (t.length - cap) with
    | some cutPoint =>
      have hge := indexOfFrom_ge hidx
      show (t.drop (cutPoint + 2)).length ≤ cap
      simp only [List.length_drop]
      omega
    | none =>
      show (t.drop (t.length - cap)).length ≤ cap
      simp only [List.length_drop]
      omega
  · next hlen => omega

theorem drop_body_sep (u x : Str) :
    (u ++ (entrySep ++ x)).drop (u.length + 2) = x := by
  rw [List.drop_append_eq_append_drop]
  rw [List.drop_eq_nil_of_le (by omega), List.nil_append]
  have h2 : u.length + 2 - u.length = 2 := by omega
  rw [h2]
  simp [entrySep]

theorem truncate_cut (cap : Nat) (u x : Str) (hu : '\n' ∉ u)
    (hstart : (u ++ (entrySep ++ x)).length - cap ≤ u.length)
    (hover : cap < (u ++ (entrySep ++ x)).length) :
    truncateTranscript cap (u ++ (entrySep ++ x)) = x := by
  have hdrop : (u ++ (entrySep ++ x)).drop ((u ++ (entrySep ++ x)).length - cap) =
      (u.drop ((u ++ (entrySep ++ x)).length - cap)) ++ (entrySep ++ x) := by
    rw [List.drop_append_eq_append_drop, Nat.sub_eq_zero_of_le hstart, List.drop_zero]
  have hfree : '\n' ∉ u.drop ((u ++ (entrySep ++ x)).length - cap) :=
    fun hm => hu (List.drop_subset _ _ hm)
  have hidx : indexOfFrom (u ++ (entrySep ++ x)) entrySep
      ((u ++ (entrySep ++ x)).length - cap) = some u.length := by
    rw [indexOfFrom, hdrop, indexOfAux_append_free _ _ hfree]
    simp only [Option.map_some', List.length_drop]
    congr 1
    omega
  unfold truncateTranscript
  rw [if_pos hover, hidx]
  exact drop_body_sep u x

theorem truncate_single_overflow (cap : Nat) (u : Str) (hu : '\n' ∉ u)
    (hcap : 2 ≤ cap) (hover : cap < u.length + 2) :
    truncateTranscript cap (u ++ entrySep) = [] := by
  have h1 : truncateTranscript cap (u ++ (entrySep ++ ([] : Str))) = [] := by
    apply truncate_cut cap u [] hu
    · simp [entrySep]
      omega
    · simp [entrySep]
      omega
  simpa using h1

/-! ## Rendered entry lists and their separator structure -/

theorem entryBody_free (e : TranscriptEntry) (h : CleanEntry e) :
    '\n' ∉ entryBody e := by
  intro hm
  simp only [entryBody, List.mem_append, List.mem_cons] at hm
  rcases hm with hm | hm | hm | hm
  · exact h.1 hm
  · exact absurd hm (by decide)
  · exact absurd hm (by decide)
  · exact h.2 hm

theorem renderEntry_eq (e : TranscriptEntry) :
    renderEntry e = entryBody e ++ entrySep := by
  simp [renderEntry, userEntry, entryBody]

theorem renderAll_append (l1 l2 : List TranscriptEntry) :
    renderAll (l1 ++ l2) = renderAll l1 ++ renderAll l2 := by
  induction l1 with
  | nil => simp [renderAll]
  | cons e t ih => simp [renderAll, ih]

theorem renderAll_cons_decomp (e : TranscriptEntry) (es : List TranscriptEntry) :
    renderAll (e :: es) = entryBody e ++ (entrySep ++ renderAll es) := by
  rw [renderAll, renderEntry_eq, List.append_assoc]

theorem renderAll_ends (es : List TranscriptEntry) (hne : es ≠ []) :
    ∃ w, renderAll es = w ++ entrySep := by
  induction es with
  | nil => exact absurd rfl hne
  | cons e t ih =>
    cases t with
    | nil => exact ⟨entryBody e, by simp [renderAll, renderEntry_eq]⟩
    | cons f fs =>
      obtain ⟨w, hw⟩ := ih (by simp)
      exact ⟨renderEntry e ++ w, by rw [renderAll, hw, List.append_assoc]⟩

theorem entryBody_head_ne (e : TranscriptEntry) (he : CleanEntry e) :
    ∀ c l, entryBody e = c :: l → c ≠ '\n' := by
  intro c l hcl
  cases hsp : e.speaker with
  | nil =>
    rw [entryBody, hsp, List.nil_append] at hcl
    injection hcl with h1 _
    rw [← h1]
    decide
  | cons a as =>
    rw [entryBody, hsp, List.cons_append] at hcl
    injection hcl with h1 _
    rw [← h1]
    intro hEq
    exact he.1 (by rw [hsp, hEq]; exact List.mem_cons_self _ _)

theorem renderAll_head_ne (es : List TranscriptEntry)
    (h : ∀ e ∈ es, CleanEntry e) :
    ∀ c l, renderAll es = c :: l → c ≠ '\n' := by
  intro c l hcl
  cases es with
  | nil => simp [renderAll] at hcl
  | cons e t =>
    rw [renderAll_cons_decomp] at hcl
    cases hb : entryBody e with
    | nil =>
      exfalso
      have hlb : (entryBody e).length = 0 := by rw [hb]; rfl
      simp [entryBody] at hlb
    | cons b bs =>
      rw [hb, List.cons_append] at hcl
      injection hcl with h1 _
      rw [← h1]
      exact entryBody_head_ne e (h e (List.mem_cons_self e t)) b bs hb

theorem entrySep_not_isPrefixOf_newline_renderAll (es : List TranscriptEntry)
    (h : ∀ e ∈ es, CleanEntry e) :
    entrySep.isPrefixOf ('\n' :: renderAll es) = false := by
  cases hR : renderAll es with
  | nil => simp [entrySep, List.isPrefixOf]
  | cons c l =>
    have hc : c ≠ '\n' := renderAll_head_ne es h c l hR
    simp [entrySep, List.isPrefixOf, Ne.symm hc]

theorem drop_shape (es : List TranscriptEntry) (h : ∀ e ∈ es, CleanEntry e) :
    ∀ q, ((renderAll es).drop q = []) ∨
      (∃ u k, '\n' ∉ u ∧
        (renderAll es).drop q = u ++ (entrySep ++ renderAll (es.drop k))) ∨
      (∃ k, (renderAll es).drop q = '\n' :: renderAll (es.drop k)) := by
  induction es with
  | nil =>
    intro q
    left
    simp [renderAll]
  | cons e t ih =>
    intro q
    have hcl : ∀ f ∈ t, CleanEntry f := fun f hf => h f (List.mem_cons_of_mem e hf)
    have hd : renderAll (e :: t) = entryBody e ++ (entrySep ++ renderAll t) :=
      renderAll_cons_decomp e t
    rcases le_or_lt q (entryBody e).length with hq | hq
    · right; left
      refine ⟨(entryBody e).drop q, 1,
        fun hm => entryBody_free e (h e (List.mem_cons_self e t)) (List.drop_subset _ _ hm), ?_⟩
      rw [hd, List.drop_append_eq_append_drop, Nat.sub_eq_zero_of_le hq, List.drop_zero]
      simp
    · rcases Nat.lt_or_ge q ((entryBody e).length + 2) with hq2 | hq2
      · right; right
        refine ⟨1, ?_⟩
        rw [hd, List.drop_append_eq_append_drop,
          List.drop_eq_nil_of_le (by omega), List.nil_append]
        have h2 : q - (entryBody e).length = 1 := by omega
        rw [h2]
        simp [entrySep]
      · have hdq : (renderAll (e :: t)).drop q =
            (renderAll t).drop (q - (entryBody e).length - 2) := by
          rw [hd, List.drop_append_eq_append_drop,
            List.drop_eq_nil_of_le (by omega), List.nil_append,
            List.drop_append_eq_append_drop,
            List.drop_eq_nil_of_le (by simp [entrySep]; omega), List.nil_append]
          congr 1
        rcases ih hcl (q - (entryBody e).length - 2) with h0 | ⟨u, k, hu, heq⟩ | ⟨k, heq⟩
        · left
          rw [hdq, h0]
        · right; left
          exact ⟨u, k + 1, hu, by rw [hdq, heq]; simp⟩
        · right; right
          exact ⟨k + 1, by rw [hdq, heq]; simp⟩

theorem found_boundary (es : List TranscriptEntry) (h : ∀ e ∈ es, CleanEntry e)
    (q p : Nat) (hp : indexOfFrom (renderAll es) entrySep q = some p) :
    ∃ k, (renderAll es).drop (p + 2) = renderAll (es.drop k) := by
  obtain ⟨m, hm, hpm⟩ :
      ∃ m, indexOfAux entrySep ((renderAll es).drop q) = some m ∧ p = m + q := by
    unfold indexOfFrom at hp
    cases hx : indexOfAux entrySep ((renderAll es).drop q) with
    | none => rw [hx] at hp; simp at hp
    | some m => rw [hx] at hp; simp at hp; exact ⟨m, rfl, hp.symm⟩
  have hdd : (renderAll es).drop (p + 2) = ((renderAll es).drop q).drop (m + 2) := by
    rw [List.drop_drop]
    congr 1
    omega
  rcases drop_shape es h q with h0 | ⟨u, k, hu, heq⟩ | ⟨k, heq⟩
  · rw [h0] at hm
    simp [indexOfAux, entrySep, List.isPrefixOf] at hm
  · rw [heq, indexOfAux_append_free _ _ hu] at hm
    have hmu : u.length = m := by simpa using hm
    refine ⟨k, ?_⟩
    rw [hdd, heq, ← hmu]
    exact drop_body_sep u _
  · have hclk : ∀ f ∈ es.drop k, CleanEntry f :=
      fun f hf => h f (List.drop_subset _ _ hf)
    cases hdk : es.drop k with
    | nil =>
      exfalso
      rw [hdk] at heq
      rw [heq] at hm
      simp [renderAll, indexOfAux, entrySep, List.isPrefixOf] at hm
    | cons e' rest =>
      rw [hdk] at heq hclk
      have hnp := entrySep_not_isPrefixOf_newline_renderAll (e' :: rest) hclk
      have hstep : indexOfAux entrySep ('\n' :: renderAll (e' :: rest)) =
          (indexOfAux entrySep (renderAll (e' :: rest))).map (· + 1) := by
        rw [indexOfAux, if_neg (by simp [hnp])]
      rw [heq, hstep, renderAll_cons_decomp,
        indexOfAux_append_free _ _ (entryBody_free e' (hclk e' (List.mem_cons_self e' rest)))]
        at hm
      have hmv : (entryBody e').length + 1 = m := by simpa using hm
      refine ⟨k + 1, ?_⟩
      have hrest : es.drop (k + 1) = rest := by
        have hcomp : es.drop (k + 1) = (es.drop k).drop 1 := by
          rw [List.drop_drop]
        rw [hcomp, hdk, List.drop_succ_cons, List.drop_zero]
      rw [hdd, heq, hrest, renderAll_cons_decomp, ← hmv]
      have hsucc : (entryBody e').length + 1 + 2 = ((entryBody e').length + 2) + 1 := by
        omega
      rw [hsucc, List.drop_succ_cons]
      exact drop_body_sep (entryBody e') _

theorem truncateTranscript_renderAll (cap : Nat) (hcap : 2 ≤ cap)
    (es : List TranscriptEntry) (h : ∀ e ∈ es, CleanEntry e) :
    ∃ k, truncateTranscript cap (renderAll es) = renderAll (es.drop k) := by
  by_cases hlen : cap < (renderAll es).length
  · cases hidx : indexOfFrom (renderAll es) entrySep ((renderAll es).length - cap) with
    | some cutPoint =>
      obtain ⟨k, hk⟩ := found_boundary es h _ cutPoint hidx
      refine ⟨k, ?_⟩
      unfold truncateTranscript
      rw [if_pos hlen, hidx]
      exact hk
    | none =>
      exfalso
      have hne : es ≠ [] := by
        intro h0
        rw [h0] at hlen
        simp [renderAll] at hlen
      obtain ⟨w, hw⟩ := renderAll_ends es hne
      have hlenS : (renderAll es).length = w.length + 2 := by
        rw [hw]
        simp [entrySep]
      have hpre : entrySep.isPrefixOf
          (((renderAll es).drop ((renderAll es).length - cap)).drop
            (w.length - ((renderAll es).length - cap))) = true := by
        rw [List.drop_drop]
        have harith : (renderAll es).length - cap +
            (w.length - ((renderAll es).length - cap)) = w.length := by omega
        rw [harith, hw, List.drop_append_eq_append_drop,
          List.drop_eq_nil_of_le (le_refl _), List.nil_append, Nat.sub_self,
          List.drop_zero]
        simp [entrySep, List.isPrefixOf]
      have hnone := indexOfAux_ne_none _ _ hpre
      unfold indexOfFrom at hidx
      simp only [Option.map_eq_none'] at hidx
      exact hnone hidx
  · refine ⟨0, ?_⟩
    unfold truncateTranscript
    rw [if_neg hlen]
    simp

theorem boundarySuffix_bound (t : Str) (es : List TranscriptEntry)
    (h : BoundarySuffix t es) : ∃ k, k ≤ es.length ∧ t = renderAll (es.drop k) := by
  obtain ⟨k, hk⟩ := h
  by_cases hle : k ≤ es.length
  · exact ⟨k, hle, hk⟩
  · refine ⟨es.length, le_refl _, ?_⟩
    rw [hk, List.drop_eq_nil_of_le (by omega), List.drop_length]

theorem boundary_step (es : List TranscriptEntry) (h : ∀ e ∈ es, CleanEntry e)
    (t : Str) (ht : BoundarySuffix t es) (e : TranscriptEntry) (he : CleanEntry e) :
    BoundarySuffix (truncateTranscript TRANSCRIPT_MAX_BYTES (t ++ renderEntry e))
      (es ++ [e]) := by
  obtain ⟨k, hkle, hk⟩ := boundarySuffix_bound t es ht
  have hdecomp : t ++ renderEntry e = renderAll (es.drop k ++ [e]) := by
    rw [renderAll_append, hk]
    simp [renderAll]
  have hclean2 : ∀ f ∈ es.drop k ++ [e], CleanEntry f := by
    intro f hf
    rcases List.mem_append.1 hf with hf | hf
    · exact h f (List.drop_subset _ _ hf)
    · simp at hf
      rw [hf]
      exact he
  obtain ⟨k', hk'⟩ := truncateTranscript_renderAll TRANSCRIPT_MAX_BYTES
    (by norm_num [TRANSCRIPT_MAX_BYTES]) _ hclean2
  refine ⟨k + k', ?_⟩
  rw [hdecomp, hk']
  congr 1
  have hsplit : (es ++ [e]).drop k = es.drop k ++ [e] := by
    rw [List.drop_append_eq_append_drop, Nat.sub_eq_zero_of_le hkle, List.drop_zero]
  rw [← hsplit, List.drop_drop]

theorem cex_text_len : cexEntryText.length = 60002 := by
  rw [cexEntryText, List.length_append, List.length_append,
    List.length_replicate, List.length_replicate]
  norm_num [entrySep]

theorem cex_len_head : ('U' :: ':' :: ' ' :: List.replicate 30000 'a').length = 30003 := by
  rw [List.length_cons, List.length_cons, List.length_cons, List.length_replicate]

theorem cex_len_tail :
    (entrySep ++ (List.replicate 30000 'b' ++ entrySep)).length = 30004 := by
  rw [List.length_append, List.length_append, List.length_replicate]
  norm_num [entrySep]

theorem cex_entry_len :
    (renderEntry { speaker := (['U'] : Str), text := cexEntryText }).length = 60007 := by
  rw [renderEntry_eq, List.length_append]
  have hb : entryBody { speaker := (['U'] : Str), text := cexEntryText } =
      'U' :: ':' :: ' ' :: cexEntryText := rfl
  rw [hb, List.length_cons, List.length_cons, List.length_cons, cex_text_len]
  norm_num [entrySep]

/-- Claim C1 as stated is false on the code: recording a single message
whose text contains an internal blank line, with thirty thousand
characters on each side of it, makes the cap cut at the internal
separator, leaving the tail half of the entry in the transcript, so this
entry is partially truncated: the result is neither the whole entry nor
the empty suffix. -/
theorem claim_C1_counterexample :
    cexSession.transcript = List.replicate 30000 'b' ++ entrySep ∧
    cexSession.transcript ≠ renderEntry { speaker := ['U'], text := cexEntryText } ∧
    cexSession.transcript ≠ [] := by
  have h1 : cexSession.transcript =
      truncateTranscript TRANSCRIPT_MAX_BYTES (([] : Str) ++ userEntry ['U'] cexEntryText) := by
    unfold cexSession
    rw [trackMessage_transcript]
    have hcl : shouldCloseSession SESSION_MAX_MESSAGES SESSION_IDLE_TIMEOUT_MIN 0
        (newSessionState 0) = none := by decide
    rw [hcl]
    rfl
  have hform : (([] : Str) ++ userEntry ['U'] cexEntryText) =
      ('U' :: ':' :: ' ' :: List.replicate 30000 'a') ++
        (entrySep ++ (List.replicate 30000 'b' ++ entrySep)) := by
    simp [-List.reduceReplicate, userEntry, cexEntryText, List.append_assoc]
  have hu : '\n' ∉ ('U' :: ':' :: ' ' :: List.replicate 30000 'a') := by
    intro hm
    simp only [List.mem_cons, List.mem_replicate] at hm
    rcases hm with h | h | h | ⟨-, h⟩ <;> exact absurd h (by decide)
  have hmain : cexSession.transcript = List.replicate 30000 'b' ++ entrySep := by
    rw [h1, hform]
    apply truncate_cut _ _ _ hu
    · rw [List.length_append, cex_len_head, cex_len_tail]
      norm_num [TRANSCRIPT_MAX_BYTES]
    · rw [List.length_append, cex_len_head, cex_len_tail]
      norm_num [TRANSCRIPT_MAX_BYTES]
  refine ⟨hmain, ?_, ?_⟩
  · rw [hmain]
    intro heq
    have hlen := congrArg List.length heq
    rw [List.length_append, List.length_replicate, cex_entry_len] at hlen
    norm_num [entrySep] at hlen
  · rw [hmain]
    intro heq
    have hlen := congrArg List.length heq
    rw [List.length_append, List.length_replicate] at hlen
    norm_num [entrySep] at hlen

/-- Claim C1, amended: after every trackMessage and trackResponse the
transcript length never exceeds the cap; and provided every recorded
speaker name and text is free of newline characters, truncation always
cuts at an entry boundary, so the transcript is always a suffix of the
appended entries with no entry partially truncated. -/
theorem claim_C1 (maxMessages idleTimeoutMin : Nat) (supabaseConfigured : Bool)
    (now : Nat) (text userName userId chatId response : Str) (s : SessionState)
    (es : List TranscriptEntry)
    (hclean : ∀ e ∈ es, CleanEntry e)
    (hsuffix : BoundarySuffix s.transcript es)
    (hname : '\n' ∉ userName) (htext : '\n' ∉ text) (hresp : '\n' ∉ response) :
    (trackMessage maxMessages idleTimeoutMin supabaseConfigured now
        text userName userId chatId s).transcript.length ≤ TRANSCRIPT_MAX_BYTES ∧
    (trackResponse response s).transcript.length ≤ TRANSCRIPT_MAX_BYTES ∧
    BoundarySuffix (trackMessage maxMessages idleTimeoutMin supabaseConfigured now
        text userName userId chatId s).transcript
      (es ++ [{ speaker := userName, text := text }]) ∧
    BoundarySuffix (trackResponse response s).transcript
      (es ++ [{ speaker := assistantName, text := response }]) := by
  refine ⟨?_, ?_, ?_, ?_⟩
  · rw [trackMessage_transcript]
    exact truncateTranscript_length_le _ _
  · show (truncateTranscript TRANSCRIPT_MAX_BYTES
      (s.transcript ++ userEntry assistantName response)).length ≤ TRANSCRIPT_MAX_BYTES
    exact truncateTranscript_length_le _ _
  · rw [trackMessage_transcript]
    cases hcl : shouldCloseSession maxMessages idleTimeoutMin now s with
    | some r =>
      exact boundary_step es hclean [] ⟨es.length, by simp [List.drop_length, renderAll]⟩
        { speaker := userName, text := text } ⟨hname, htext⟩
    | none =>
      exact boundary_step es hclean s.transcript hsuffix
        { speaker := userName, text := text } ⟨hname, htext⟩
  · show BoundarySuffix (truncateTranscript TRANSCRIPT_MAX_BYTES
      (s.transcript ++ userEntry assistantName response)) _
    have hA : '\n' ∉ assistantName := by decide
    exact boundary_step es hclean s.transcript hsuffix
      { speaker := assistantName, text := response } ⟨hA, hresp⟩

/-- Witness for the amended claim C1 at a fresh session, an empty entry
history and short newline-free message and reply texts. -/
theorem claim_C1_witness :
    (∀ e ∈ ([] : List TranscriptEntry), CleanEntry e) ∧
    BoundarySuffix (newSessionState 0).transcript [] ∧
    '\n' ∉ (['U'] : Str) ∧ '\n' ∉ (['h', 'i'] : Str) ∧ '\n' ∉ (['o', 'k'] : Str) ∧
    ((trackMessage SESSION_MAX_MESSAGES SESSION_IDLE_TIMEOUT_MIN false 0
        ['h', 'i'] ['U'] ['u'] ['c'] (newSessionState 0)).transcript.length ≤
          TRANSCRIPT_MAX_BYTES ∧
      (trackResponse ['o', 'k'] (newSessionState 0)).transcript.length ≤
        TRANSCRIPT_MAX_BYTES ∧
      BoundarySuffix (trackMessage SESSION_MAX_MESSAGES SESSION_IDLE_TIMEOUT_MIN false 0
          ['h', 'i'] ['U'] ['u'] ['c'] (newSessionState 0)).transcript
        ([] ++ [{ speaker := ['U'], text := ['h', 'i'] }]) ∧
      BoundarySuffix (trackResponse ['o', 'k'] (newSessionState 0)).transcript
        ([] ++ [{ speaker := assistantName, text := ['o', 'k'] }])) :=
  ⟨by simp, ⟨0, rfl⟩, by decide, by decide, by decide,
    claim_C1 SESSION_MAX_MESSAGES SESSION_IDLE_TIMEOUT_MIN false 0
      ['h', 'i'] ['U'] ['u'] ['c'] ['o', 'k'] (newSessionState 0) []
      (by simp) ⟨0, rfl⟩ (by decide) (by decide) (by decide)⟩

/-- Claim C9: when the transcript is empty and a single newline-free
entry longer than the cap is recorded, the cap cut lands on the
just-appended entry's own trailing separator and the resulting
transcript is empty: the message just recorded is discarded entirely.
The same holds for trackResponse. -/
theorem claim_C9 (maxMessages idleTimeoutMin : Nat) (supabaseConfigured : Bool)
    (now : Nat) (text userName userId chatId response : Str) (s : SessionState)
    (h0 : s.transcript = [])
    (hname : '\n' ∉ userName) (htext : '\n' ∉ text) (hresp : '\n' ∉ response)
    (hlen1 : TRANSCRIPT_MAX_BYTES < userName.length + text.length + 4)
    (hlen2 : TRANSCRIPT_MAX_BYTES < assistantName.length + response.length + 4) :
    (trackMessage maxMessages idleTimeoutMin supabaseConfigured now
        text userName userId chatId s).transcript = [] ∧
    (trackResponse response s).transcript = [] := by
  have hsplit1 : userEntry userName text =
      (userName ++ (':' :: ' ' :: text)) ++ entrySep :=
    renderEntry_eq { speaker := userName, text := text }
  have hu1 : '\n' ∉ userName ++ (':' :: ' ' :: text) :=
    entryBody_free { speaker := userName, text := text } ⟨hname, htext⟩
  have hover1 : TRANSCRIPT_MAX_BYTES < (userName ++ (':' :: ' ' :: text)).length + 2 := by
    simp only [List.length_append, List.length_cons]
    omega
  constructor
  · rw [trackMessage_transcript]
    cases hcl : shouldCloseSession maxMessages idleTimeoutMin now s with
    | some r =>
      show truncateTranscript TRANSCRIPT_MAX_BYTES
        (([] : Str) ++ userEntry userName text) = []
      rw [List.nil_append, hsplit1]
      exact truncate_single_overflow _ _ hu1 (by norm_num [TRANSCRIPT_MAX_BYTES]) hover1
    | none =>
      show truncateTranscript TRANSCRIPT_MAX_BYTES
        (s.transcript ++ userEntry userName text) = []
      rw [h0, List.nil_append, hsplit1]
      exact truncate_single_overflow _ _ hu1 (by norm_num [TRANSCRIPT_MAX_BYTES]) hover1
  · show truncateTranscript TRANSCRIPT_MAX_BYTES
      (s.transcript ++ userEntry assistantName response) = []
    have hsplit2 : userEntry assistantName response =
        (assistantName ++ (':' :: ' ' :: response)) ++ entrySep :=
      renderEntry_eq { speaker := assistantName, text := response }
    have hA : '\n' ∉ assistantName := by decide
    have hu2 : '\n' ∉ assistantName ++ (':' :: ' ' :: response) :=
      entryBody_free { speaker := assistantName, text := response } ⟨hA, hresp⟩
    have hover2 : TRANSCRIPT_MAX_BYTES <
        (assistantName ++ (':' :: ' ' :: response)).length + 2 := by
      simp only [List.length_append, List.length_cons]
      omega
    rw [h0, List.nil_append, hsplit2]
    exact truncate_single_overflow _ _ hu2 (by norm_num [TRANSCRIPT_MAX_BYTES]) hover2

theorem rep_big_len : (List.replicate 51200 'a').length = 51200 := by
  rw [List.length_replicate]

theorem rep_big_free : '\n' ∉ List.replicate 51200 'a' := by
  intro hm
  rw [List.mem_replicate] at hm
  exact absurd hm.2 (by decide)

theorem assistantName_len : assistantName.length = 9 := by decide

/-- Witness for claim C9: a message of 51200 letters recorded into a
fresh session is discarded from the transcript entirely. -/
theorem claim_C9_witness :
    (newSessionState 0).transcript = [] ∧
    '\n' ∉ (['U'] : Str) ∧
    '\n' ∉ List.replicate 51200 'a' ∧
    TRANSCRIPT_MAX_BYTES <
      (['U'] : Str).length + (List.replicate 51200 'a').length + 4 ∧
    TRANSCRIPT_MAX_BYTES <
      assistantName.length + (List.replicate 51200 'a').length + 4 ∧
    ((trackMessage SESSION_MAX_MESSAGES SESSION_IDLE_TIMEOUT_MIN false 0
        (List.replicate 51200 'a') ['U'] ['u'] ['c'] (newSessionState 0)).transcript = [] ∧
      (trackResponse (List.replicate 51200 'a') (newSessionState 0)).transcript = []) :=
  ⟨rfl, by decide, rep_big_free,
    by rw [rep_big_len]; norm_num [TRANSCRIPT_MAX_BYTES],
    by rw [rep_big_len, assistantName_len]; norm_num [TRANSCRIPT_MAX_BYTES],
    claim_C9 SESSION_MAX_MESSAGES SESSION_IDLE_TIMEOUT_MIN false 0
      (List.replicate 51200 'a') ['U'] ['u'] ['c'] (List.replicate 51200 'a')
      (newSessionState 0) rfl (by decide) rep_big_free rep_big_free
      (by rw [rep_big_len]; norm_num [TRANSCRIPT_MAX_BYTES])
      (by rw [rep_big_len, assistantName_len]; norm_num [TRANSCRIPT_MAX_BYTES])⟩
